import Mathlib

/-!
Shallow embedding of the versioned settings-migration engine of
`cellprofiler/modules/loadsingleimage.py` (`LoadSingleImage.upgrade_settings`
and the entry-count computation of `LoadSingleImage.prepare_settings`).

A settings record is the Python list `setting_values`.  In the source it is a
list of strings, except that the revision-2 URL branch builds
`[dir] + zip(...)`, which in Python 2 yields a list whose tail elements are
*tuples*.  The element type `PyVal` therefore has both a string and a pair
constructor, so that the embedding can express exactly what the source builds.

Python runtime failures (IndexError on `lst[i]`, AttributeError on
`tup.startswith`/`tup.split`, TypeError on `str + tuple`, ValueError on
unpacking a 1-tuple) are modelled with `Except PErr`.

The in-place write `setting_values[SLOT_DIR] = ...` at line 441 of the source
is the only statement that can mutate the caller's list object; the embedding
threads the contents of the caller's list (`caller`) together with a flag
(`aliased`) recording whether the local name still refers to that object, and
`upgrade_settings` returns the final contents of the caller's list alongside
the usual result triple.
-/

set_option autoImplicit false

namespace LoadSingleImage

/-- A Python value that can appear in a settings record: a string field, or
the 2-tuple that `zip` produces in the revision-2 URL branch. -/
inductive PyVal where
  | str : String → PyVal
  | tup : PyVal → PyVal → PyVal
deriving DecidableEq

/-- A Python runtime error raised while migrating. -/
inductive PErr where
  | indexError
  | typeError
  | attributeError
  | valueError
deriving DecidableEq

/-- Python `lst[i]` on a settings record. -/
def pyGet (l : List PyVal) (i : Nat) : Except PErr PyVal :=
  match l.get? i with
  | some v => Except.ok v
  | none => Except.error PErr.indexError

/-- Python `v == s` where `s` is a string literal: comparing a tuple with a
string yields `False` rather than an error. -/
def pyEqStr (v : PyVal) (s : String) : Bool :=
  match v with
  | PyVal.str a => if a = s then true else false
  | PyVal.tup _ _ => false

/-- Python `del lst[i:i+n]`. -/
def delSlice (l : List PyVal) (i n : Nat) : List PyVal :=
  l.take i ++ l.drop (i + n)

/-- `charsStartWith p s` is `True` when `p` is an initial segment of `s`
(char-list form of Python `s.startswith(p)`). -/
def charsStartWith : List Char → List Char → Bool
  | [], _ => true
  | _ :: _, [] => false
  | p :: ps, s :: ss => if p = s then charsStartWith ps ss else false

/-- Python `s.startswith(p)` for strings. -/
def strStartsWith (s p : String) : Bool :=
  charsStartWith p.data s.data

/- Module-level string constants.  The first two are defined in the source
file itself (lines 59-60); the remaining ones live in `cellprofiler.settings`
/ `cellprofiler.preferences` / `loadimages`, which are not part of the given
sources, so their values are modelled from the spec's vocabulary. -/

/-- Source line 59. -/
def DIR_CUSTOM_FOLDER : String := "Custom folder"

/-- Source line 60. -/
def DIR_CUSTOM_WITH_METADATA : String := "Custom with metadata"

/-- Source line 66. -/
def S_FILE_SETTINGS_COUNT_V5 : Nat := 5

/-- Modelled from the spec: the default-input folder-choice tag
(`cps.DEFAULT_INPUT_FOLDER_NAME`, defined in `cellprofiler.settings`,
which is not among the given sources). -/
def DEFAULT_INPUT_FOLDER_NAME : String := "Default Input Folder"

/-- Modelled from the spec: the default-output folder-choice tag
(`cps.DEFAULT_OUTPUT_FOLDER_NAME`, not among the given sources). -/
def DEFAULT_OUTPUT_FOLDER_NAME : String := "Default Output Folder"

/-- Modelled from the spec: the custom-subfolder-of-input tag
(`cps.DEFAULT_INPUT_SUBFOLDER_NAME`, not among the given sources). -/
def DEFAULT_INPUT_SUBFOLDER_NAME : String := "Default Input Folder sub-folder"

/-- Modelled from the spec: the custom-subfolder-of-output tag
(`cps.DEFAULT_OUTPUT_SUBFOLDER_NAME`, not among the given sources). -/
def DEFAULT_OUTPUT_SUBFOLDER_NAME : String := "Default Output Folder sub-folder"

/-- Modelled from the spec: the custom-absolute folder tag
(`cps.ABSOLUTE_FOLDER_NAME`, not among the given sources). -/
def ABSOLUTE_FOLDER_NAME : String := "Elsewhere..."

/-- Modelled from the spec: the url folder-choice tag
(`cps.URL_FOLDER_NAME`, not among the given sources). -/
def URL_FOLDER_NAME : String := "URL"

/-- Modelled from the spec: the "unused" sentinel marking removable legacy
entries (`cps.DO_NOT_USE`, not among the given sources). -/
def DO_NOT_USE : String := "Do not use"

/-- Modelled from the spec: the true/"yes" boolean encoding (`cps.YES`, not
among the given sources). -/
def YES : String := "Yes"

/-- Modelled from the spec: the image variant of the load-as-image-or-objects
choice (`IO_IMAGES` from `loadimages`, not among the given sources). -/
def IO_IMAGES : String := "Images"

/- Location descriptor codec (`cps.DirectoryPath`), not among the given
sources; modelled from spec section 4.1. -/

/-- Split a character list at the first `'|'`; `none` when no delimiter
occurs. -/
def splitBarAux : List Char → Option (List Char × List Char)
  | [] => none
  | c :: r =>
    if c = '|' then some ([], r)
    else
      match splitBarAux r with
      | some (a, b) => some (c :: a, b)
      | none => none

/-- Modelled from the spec: `cps.DirectoryPath.split_string`, the decode half
of the location-descriptor codec — split the wire string at the delimiter
into (folder-choice tag, custom path); fails (`none`) when the delimiter is
missing. -/
def split_string (s : String) : Option (String × String) :=
  match splitBarAux s.data with
  | some (a, b) => some (String.mk a, String.mk b)
  | none => none

/-- Modelled from the spec: `cps.DirectoryPath.static_join_string`, the encode
half of the location-descriptor codec — join a folder-choice tag and a custom
path into the single-string wire encoding. -/
def static_join_string (dir_choice custom_path : String) : String :=
  dir_choice ++ "|" ++ custom_path

/-- Modelled from the spec: the tag-normalization half of
`upgrade_legacy_tag` — map deprecated folder-tag spellings (the old
"default image folder" naming) to the current tags, leaving every other tag
unchanged. -/
def standardize_tag (tag : String) : String :=
  if tag = "Default image folder" ∨ tag = "Default Image Folder" then
    DEFAULT_INPUT_FOLDER_NAME
  else if tag = "Default output folder" then
    DEFAULT_OUTPUT_FOLDER_NAME
  else tag

/-- Modelled from the spec: `cps.DirectoryPath.upgrade_setting` /
`upgrade_legacy_tag` — a total string-to-string normalization that maps a
deprecated tag spelling to its current tag without altering the custom-path
component. -/
def upgradeSettingStr (s : String) : String :=
  match split_string s with
  | some (tag, path) => static_join_string (standardize_tag tag) path
  | none => standardize_tag s

/- Revision rewrite branches of `upgrade_settings`, one definition per source
branch. -/

/-- The folder tag chosen by the legacy rewrite from the one-character
convention in the record's second field (source lines 400-405). -/
def legacyTag (v : PyVal) : String :=
  if pyEqStr v "." then DEFAULT_INPUT_FOLDER_NAME
  else if pyEqStr v "&" then DEFAULT_OUTPUT_FOLDER_NAME
  else DIR_CUSTOM_FOLDER

/-- Source lines 397-405: copy the record and overwrite its first field with
the explicit folder tag decoded from the second field.  Reading
`setting_values[1]` fails on records shorter than two fields. -/
def matlabTag (sv : List PyVal) : Except PErr (List PyVal) := do
  let v1 ← pyGet sv 1
  match sv with
  | [] => Except.error PErr.indexError
  | _ :: rest => Except.ok (PyVal.str (legacyTag v1) :: rest)

/-- One iteration of the deletion loop at source lines 409-411: check
`new_setting_values[i+1]` and delete the slice `[i:i+2]` when it equals the
"unused" sentinel. -/
def matlabDeleteStep (l : List PyVal) (i : Nat) : Except PErr (List PyVal) :=
  match l.get? (i + 1) with
  | none => Except.error PErr.indexError
  | some v => Except.ok (if pyEqStr v DO_NOT_USE then delSlice l i 2 else l)

/-- Source lines 409-411: scan the fixed index list `[8, 6, 4]` from the
highest index downward, deleting each "unused" entry slice. -/
def matlabDeletes (l : List PyVal) : Except PErr (List PyVal) := do
  let l1 ← matlabDeleteStep l 8
  let l2 ← matlabDeleteStep l1 6
  matlabDeleteStep l2 4

/-- Source lines 396-414: the whole matlab-origin (legacy, revision 4) rewrite
body — tag decoding followed by unused-entry deletion. -/
def matlabBranch (sv : List PyVal) : Except PErr (List PyVal) := do
  let sv1 ← matlabTag sv
  matlabDeletes sv1

/-- Source lines 418-437: the revision 1 → 2 rewrite body.  Splits into the
three directory cases, re-encodes (tag, path) into a single compound field
and drops one prefix field.  Python failure points: `setting_values[0]` /
`setting_values[1]` on too-short records, `custom_directory[0]` on an empty
custom-directory string, `.startswith` on a tuple, and string/tuple
concatenation inside the join. -/
def rev1Branch (sv : List PyVal) : Except PErr (List PyVal) := do
  let v0 ← pyGet sv 0
  match v0 with
  | PyVal.tup _ _ => Except.error PErr.attributeError
  | PyVal.str s0 =>
    if strStartsWith s0 "Default image" then do
      let v1 ← pyGet sv 1
      match v1 with
      | PyVal.tup _ _ => Except.error PErr.typeError
      | PyVal.str cd =>
        Except.ok (PyVal.str (static_join_string DEFAULT_INPUT_FOLDER_NAME cd) :: sv.drop 2)
    else if s0 = DIR_CUSTOM_FOLDER ∨ s0 = DIR_CUSTOM_WITH_METADATA then do
      let v1 ← pyGet sv 1
      match v1 with
      | PyVal.tup _ _ => Except.error PErr.typeError
      | PyVal.str cd =>
        match cd.data with
        | [] => Except.error PErr.indexError
        | c :: _ =>
          if c = '.' then
            Except.ok (PyVal.str (static_join_string DEFAULT_INPUT_SUBFOLDER_NAME cd) :: sv.drop 2)
          else if c = '&' then
            Except.ok (PyVal.str
              (static_join_string DEFAULT_OUTPUT_SUBFOLDER_NAME
                ("." ++ String.mk cd.data.tail)) :: sv.drop 2)
          else
            Except.ok (PyVal.str (static_join_string ABSOLUTE_FOLDER_NAME cd) :: sv.drop 2)
    else do
      let v1 ← pyGet sv 1
      match v1 with
      | PyVal.tup _ _ => Except.error PErr.typeError
      | PyVal.str cd =>
        Except.ok (PyVal.str (static_join_string s0 cd) :: sv.drop 2)

/-- Python `lst[k::2]`: every other element starting from the head of the
given suffix. -/
def everyOther : List PyVal → List PyVal
  | [] => []
  | [a] => [a]
  | a :: _ :: r => a :: everyOther r

/-- The list comprehension `[custom_dir + '/' + filename for filename in
filenames]` (source line 452); string/tuple concatenation is a TypeError. -/
def mapConcat (custom_dir : String) : List PyVal → Except PErr (List String)
  | [] => Except.ok []
  | PyVal.tup _ _ :: _ => Except.error PErr.typeError
  | PyVal.str f :: r => do
    let rest ← mapConcat custom_dir r
    Except.ok ((custom_dir ++ "/" ++ f) :: rest)

/-- Python 2 `zip(a, b)`: a list of 2-tuples, truncated to the shorter
argument. -/
def zipTup : List String → List PyVal → List PyVal
  | a :: as, b :: bs => PyVal.tup (PyVal.str a) b :: zipTup as bs
  | _, _ => []

/-- Source lines 445-454: the revision 2 → 3 rewrite body.  For a url-typed
directory the custom path is cleared and absorbed into each filename; the
result is built as `[dir] + zip(...)`, so its tail elements are tuples. -/
def rev2Branch (sv : List PyVal) : Except PErr (List PyVal) := do
  let v0 ← pyGet sv 0
  match v0 with
  | PyVal.tup _ _ => Except.error PErr.attributeError
  | PyVal.str d =>
    match split_string d with
    | none => Except.error PErr.valueError
    | some (dir_choice, custom_dir) =>
      if dir_choice = URL_FOLDER_NAME then do
        let newDir := static_join_string dir_choice ""
        let newFilenames ← mapConcat custom_dir (everyOther (sv.drop 1))
        Except.ok (PyVal.str newDir :: zipTup newFilenames (everyOther (sv.drop 2)))
      else Except.ok sv

/-- Source lines 456-461 (revision 3 → 4, tail part): Python
`for i in range(1, len(sv), 2): new += sv[i:i+2] + [cps.YES]` expressed as
chunk recursion over the tail. -/
def expandRev3 : List PyVal → List PyVal
  | [] => []
  | [a] => [a, PyVal.str YES]
  | a :: b :: r => a :: b :: PyVal.str YES :: expandRev3 r

/-- Source lines 464-473 (revision 4 → 5, tail part): Python
`for i in range(1, len(sv), 3): new += [sv[i]] + [IO_IMAGES] + sv[i+1:i+3] +
["Nuclei"]` expressed as chunk recursion over the tail. -/
def expandRev4 : List PyVal → List PyVal
  | [] => []
  | [a] => [a, PyVal.str IO_IMAGES, PyVal.str "Nuclei"]
  | [a, b] => [a, PyVal.str IO_IMAGES, b, PyVal.str "Nuclei"]
  | a :: b :: c :: r =>
    a :: PyVal.str IO_IMAGES :: b :: c :: PyVal.str "Nuclei" :: expandRev4 r

/-- The migration state threaded through `upgrade_settings`: the current list
value bound to `setting_values`, the revision and legacy-flag variables, the
current contents of the caller's list object, and whether `setting_values`
still refers to that object. -/
structure UState where
  sv : List PyVal
  vrn : Nat
  fm : Bool
  caller : List PyVal
  aliased : Bool
deriving DecidableEq

/-- Source lines 396-414 as a driver step: the legacy branch runs when
`from_matlab and variable_revision_number == 4`, rebinding `setting_values`
to a fresh list. -/
def stepMatlab (st : UState) : Except PErr UState :=
  if st.fm = true ∧ st.vrn = 4 then
    match matlabBranch st.sv with
    | Except.error e => Except.error e
    | Except.ok sv' =>
      Except.ok { st with sv := sv', vrn := 1, fm := false, aliased := false }
  else Except.ok st

/-- Source lines 418-437 as a driver step: runs when
`variable_revision_number == 1 and not from_matlab`, rebinding
`setting_values` to a fresh list. -/
def stepRev1 (st : UState) : Except PErr UState :=
  if st.fm = false ∧ st.vrn = 1 then
    match rev1Branch st.sv with
    | Except.error e => Except.error e
    | Except.ok sv' => Except.ok { st with sv := sv', vrn := 2, aliased := false }
  else Except.ok st

/-- Source lines 440-442: the unconditional in-place write
`setting_values[SLOT_DIR] = cps.DirectoryPath.upgrade_setting(...)`.
This is the one statement that can mutate the caller's list object. -/
def stepSlot (st : UState) : Except PErr UState :=
  match st.sv with
  | [] => Except.error PErr.indexError
  | PyVal.tup _ _ :: _ => Except.error PErr.attributeError
  | PyVal.str s :: rest =>
    let sv' := PyVal.str (upgradeSettingStr s) :: rest
    Except.ok { st with sv := sv', caller := if st.aliased then sv' else st.caller }

/-- Source lines 445-454 as a driver step: runs when
`variable_revision_number == 2 and (not from_matlab)`. -/
def stepRev2 (st : UState) : Except PErr UState :=
  if st.fm = false ∧ st.vrn = 2 then
    match rev2Branch st.sv with
    | Except.error e => Except.error e
    | Except.ok sv' => Except.ok { st with sv := sv', vrn := 3 }
  else Except.ok st

/-- Source lines 456-462 as a driver step. -/
def stepRev3 (st : UState) : Except PErr UState :=
  if st.fm = false ∧ st.vrn = 3 then
    Except.ok { st with sv := st.sv.take 1 ++ expandRev3 (st.sv.drop 1), vrn := 4 }
  else Except.ok st

/-- Source lines 464-473 as a driver step. -/
def stepRev4 (st : UState) : Except PErr UState :=
  if st.fm = false ∧ st.vrn = 4 then
    Except.ok { st with sv := st.sv.take 1 ++ expandRev4 (st.sv.drop 1), vrn := 5 }
  else Except.ok st

/-- Sequence a driver step after a partial run, recording the contents of the
caller's list at the moment an exception propagates. -/
def bindStep (x : Except (PErr × List PyVal) UState)
    (f : UState → Except PErr UState) : Except (PErr × List PyVal) UState :=
  match x with
  | Except.error e => Except.error e
  | Except.ok st =>
    match f st with
    | Except.error e => Except.error (e, st.caller)
    | Except.ok st' => Except.ok st'

/-- The body of `upgrade_settings` (source lines 395-475) as the sequential
composition of its branches. -/
def chainRun (sv0 : List PyVal) (vrn0 : Nat) (fm0 : Bool) :
    Except (PErr × List PyVal) UState :=
  bindStep (bindStep (bindStep (bindStep (bindStep (bindStep
    (Except.ok { sv := sv0, vrn := vrn0, fm := fm0, caller := sv0, aliased := true })
    stepMatlab) stepRev1) stepSlot) stepRev2) stepRev3) stepRev4

/-- The part of the chain up to and including the slot-0 write of source line
441 — the only prefix of the chain that can touch the caller's list. -/
def preSlotRun (sv0 : List PyVal) (vrn0 : Nat) (fm0 : Bool) :
    Except (PErr × List PyVal) UState :=
  bindStep (bindStep (bindStep
    (Except.ok { sv := sv0, vrn := vrn0, fm := fm0, caller := sv0, aliased := true })
    stepMatlab) stepRev1) stepSlot

/-- The contents of the caller's list recorded in a partial chain result. -/
def callerOf (x : Except (PErr × List PyVal) UState) : List PyVal :=
  match x with
  | Except.ok st => st.caller
  | Except.error (_, c) => c

/-- `LoadSingleImage.upgrade_settings` (source lines 395-475): returns the
`(setting_values, variable_revision_number, from_matlab)` result triple (or
the raised error), paired with the final contents of the caller's list
object. -/
def upgrade_settings (sv0 : List PyVal) (vrn0 : Nat) (fm0 : Bool) :
    Except PErr (List PyVal × Nat × Bool) × List PyVal :=
  match chainRun sv0 vrn0 fm0 with
  | Except.ok st => (Except.ok (st.sv, st.vrn, st.fm), st.caller)
  | Except.error (e, c) => (Except.error e, c)

/-- Source line 221: `count = (len(setting_values)-1) / S_FILE_SETTINGS_COUNT_V5`
with Python 2 floor division. -/
def prepare_settings_count (n : Nat) : Int :=
  Int.fdiv (Int.ofNat n - 1) (Int.ofNat S_FILE_SETTINGS_COUNT_V5)

/-- `True` when the record is a flat sequence of strings (no tuple fields). -/
def isFlat : List PyVal → Bool
  | [] => true
  | PyVal.str _ :: r => isFlat r
  | PyVal.tup _ _ :: _ => false

/-- Per-revision file-entry width (spec section 6: v1-v3 have 2 fields per
entry, v4 has 3, v5 has 5). -/
def entryWidth (vrn : Nat) : Nat :=
  if vrn = 4 then 3 else if vrn = 5 then 5 else 2

/-- Number of fixed prefix fields before the repeating tail: two at revision 1
(tag and custom path), one from revision 2 on (the joined descriptor). -/
def fixedLen (vrn : Nat) : Nat :=
  if vrn = 1 then 2 else 1

/-- Number of file entries a record holds at a given revision. -/
def entryCount (vrn : Nat) (sv : List PyVal) : Nat :=
  (sv.length - fixedLen vrn) / entryWidth vrn

/-- The two fields of one legacy file entry, kept unless its image-name field
equals the "unused" sentinel. -/
def keepEntry (f n : String) : List PyVal :=
  if n = DO_NOT_USE then [] else [PyVal.str f, PyVal.str n]

/-- `True` when the record's first field, after the slot-0 standardization of
source line 441, decodes to the url folder-choice tag — i.e. when the
revision-2 rewrite would take its URL branch on this record. -/
def urlHeadB (sv : List PyVal) : Bool :=
  match sv with
  | PyVal.str s :: _ =>
    match split_string (upgradeSettingStr s) with
    | some (dc, _) => if dc = URL_FOLDER_NAME then true else false
    | none => false
  | _ => false

/-- The record (at its declared source revision) never reaches the revision-2
URL branch: at revision 2 its own head is not url-typed, and at revision 1
the head produced by the 1 → 2 rewrite is not url-typed. -/
def notUrlAt (vrn : Nat) (sv : List PyVal) : Prop :=
  (vrn = 1 → ∀ r1, rev1Branch sv = Except.ok r1 → urlHeadB r1 = false) ∧
  (vrn = 2 → urlHeadB sv = false)

/-- The record's tail length matches its declared revision's width invariant:
`k` file entries after the fixed prefix. -/
def alignedAt (vrn : Nat) (sv : List PyVal) : Prop :=
  ∃ k, sv.length = fixedLen vrn + entryWidth vrn * k

/-- Flatten a list of width-3 (revision 4) file entries into a record tail. -/
def flat3 : List (PyVal × PyVal × PyVal) → List PyVal
  | [] => []
  | (a, b, c) :: r => a :: b :: c :: flat3 r

/-- The revision-5 tail that the 4 → 5 rewrite is specified to produce from
the same entries: choice field right after the filename, object name last. -/
def flat5 : List (PyVal × PyVal × PyVal) → List PyVal
  | [] => []
  | (a, b, c) :: r =>
    a :: PyVal.str IO_IMAGES :: b :: c :: PyVal.str "Nuclei" :: flat5 r

/-! Helper lemmas about the location-descriptor codec. -/

theorem splitBarAux_none_of_noBar :
    ∀ l : List Char, (∀ c ∈ l, c ≠ '|') → splitBarAux l = none := by
  intro l
  induction l with
  | nil => intro _; rfl
  | cons c r ih =>
    intro h
    have hc : c ≠ '|' := h c (List.mem_cons_self c r)
    have hr : splitBarAux r = none := ih fun x hx => h x (List.mem_cons_of_mem c hx)
    simp [splitBarAux, hc, hr]

theorem noBar_of_splitBarAux_none :
    ∀ l : List Char, splitBarAux l = none → ∀ c ∈ l, c ≠ '|' := by
  intro l
  induction l with
  | nil => intro _ c hc; cases hc
  | cons c r ih =>
    intro h x hx
    by_cases hc : c = '|'
    · simp [splitBarAux, hc] at h
    · simp only [splitBarAux, if_neg hc] at h
      rcases hsr : splitBarAux r with _ | ⟨a, b⟩
      · rcases List.mem_cons.mp hx with rfl | hx'
        · exact hc
        · exact ih hsr x hx'
      · rw [hsr] at h; cases h

theorem splitBarAux_append :
    ∀ (a b : List Char), (∀ c ∈ a, c ≠ '|') →
      splitBarAux (a ++ '|' :: b) = some (a, b) := by
  intro a
  induction a with
  | nil => intro b _; simp [splitBarAux]
  | cons c r ih =>
    intro b h
    have hc : c ≠ '|' := h c (List.mem_cons_self c r)
    have hr := ih b fun x hx => h x (List.mem_cons_of_mem c hx)
    simp [splitBarAux, hc, hr]

theorem splitBarAux_some :
    ∀ (l a b : List Char), splitBarAux l = some (a, b) →
      l = a ++ '|' :: b ∧ ∀ c ∈ a, c ≠ '|' := by
  intro l
  induction l with
  | nil => intro a b h; cases h
  | cons c r ih =>
    intro a b h
    by_cases hc : c = '|'
    · simp only [splitBarAux, if_pos hc] at h
      obtain ⟨rfl, rfl⟩ := Prod.mk.injEq .. ▸ Option.some.injEq .. ▸ h
      constructor
      · rw [hc]; rfl
      · intro x hx; cases hx
    · simp only [splitBarAux, if_neg hc] at h
      rcases hsr : splitBarAux r with _ | ⟨a', b'⟩ <;> rw [hsr] at h
      · cases h
      · obtain ⟨ha, hb⟩ : c :: a' = a ∧ b' = b := by
          constructor <;> cases h <;> rfl
        obtain ⟨hl, hbar⟩ := ih a' b' hsr
        subst ha; subst hb
        constructor
        · rw [List.cons_append, hl]
        · intro x hx
          rcases List.mem_cons.mp hx with rfl | hx'
          · exact hc
          · exact hbar x hx'

theorem string_data_append (a b : String) : (a ++ b).data = a.data ++ b.data := by
  cases a; cases b; rfl

theorem string_mk_data (s : String) : String.mk s.data = s := rfl

theorem static_join_data (t p : String) :
    (static_join_string t p).data = t.data ++ '|' :: p.data := by
  simp [static_join_string, string_data_append]

theorem split_string_join (t p : String) (h : ∀ c ∈ t.data, c ≠ '|') :
    split_string (static_join_string t p) = some (t, p) := by
  unfold split_string
  rw [static_join_data, splitBarAux_append t.data p.data h]

theorem standardize_tag_noBar (t : String) (h : ∀ c ∈ t.data, c ≠ '|') :
    ∀ c ∈ (standardize_tag t).data, c ≠ '|' := by
  unfold standardize_tag
  split_ifs <;> first | decide | exact h

theorem standardize_tag_idem (t : String) :
    standardize_tag (standardize_tag t) = standardize_tag t := by
  by_cases h1 : t = "Default image folder" ∨ t = "Default Image Folder"
  · have hin : standardize_tag t = DEFAULT_INPUT_FOLDER_NAME := by
      rw [standardize_tag, if_pos h1]
    rw [hin]; decide
  · by_cases h2 : t = "Default output folder"
    · have hin : standardize_tag t = DEFAULT_OUTPUT_FOLDER_NAME := by
        rw [standardize_tag, if_neg h1, if_pos h2]
      rw [hin]; decide
    · have hin : standardize_tag t = t := by
        rw [standardize_tag, if_neg h1, if_neg h2]
      rw [hin]
      exact hin

theorem upgradeSettingStr_idem (s : String) :
    upgradeSettingStr (upgradeSettingStr s) = upgradeSettingStr s := by
  rcases hs : split_string s with _ | ⟨t, p⟩
  · have hnb : ∀ c ∈ s.data, c ≠ '|' := by
      unfold split_string at hs
      rcases h' : splitBarAux s.data with _ | pr
      · exact noBar_of_splitBarAux_none s.data h'
      · rw [h'] at hs; cases hs
    have hnb2 : ∀ c ∈ (standardize_tag s).data, c ≠ '|' := standardize_tag_noBar s hnb
    have h0 : upgradeSettingStr s = standardize_tag s := by
      simp only [upgradeSettingStr, hs]
    rw [h0]
    have hsn : split_string (standardize_tag s) = none := by
      unfold split_string
      rw [splitBarAux_none_of_noBar _ hnb2]
    simp only [upgradeSettingStr, hsn]
    exact standardize_tag_idem s
  · have hsome : splitBarAux s.data = some (t.data, p.data) := by
      unfold split_string at hs
      rcases h' : splitBarAux s.data with _ | ⟨a, b⟩ <;> rw [h'] at hs
      · cases hs
      · obtain ⟨h1, h2⟩ : String.mk a = t ∧ String.mk b = p := by
          constructor <;> cases hs <;> rfl
        rw [← h1, ← h2]
    have hbar : ∀ c ∈ t.data, c ≠ '|' :=
      (splitBarAux_some s.data t.data p.data hsome).2
    have hbar2 : ∀ c ∈ (standardize_tag t).data, c ≠ '|' := standardize_tag_noBar t hbar
    have h0 : upgradeSettingStr s = static_join_string (standardize_tag t) p := by
      simp only [upgradeSettingStr, hs]
    rw [h0]
    simp only [upgradeSettingStr, split_string_join (standardize_tag t) p hbar2]
    rw [standardize_tag_idem]

/-! Helper lemmas about the migration driver chain. -/

theorem bindStep_ok_iff (x : Except (PErr × List PyVal) UState)
    (f : UState → Except PErr UState) (st' : UState) :
    bindStep x f = Except.ok st' ↔ ∃ st, x = Except.ok st ∧ f st = Except.ok st' := by
  cases x with
  | error e => simp [bindStep]
  | ok st =>
    cases hf : f st with
    | error e => simp [bindStep, hf]
    | ok st2 => simp [bindStep, hf]

theorem stepMatlab_skip (st : UState) (h : ¬(st.fm = true ∧ st.vrn = 4)) :
    stepMatlab st = Except.ok st := by
  rw [stepMatlab, if_neg h]

theorem stepRev1_skip (st : UState) (h : ¬(st.fm = false ∧ st.vrn = 1)) :
    stepRev1 st = Except.ok st := by
  rw [stepRev1, if_neg h]

theorem stepRev2_skip (st : UState) (h : ¬(st.fm = false ∧ st.vrn = 2)) :
    stepRev2 st = Except.ok st := by
  rw [stepRev2, if_neg h]

theorem stepRev3_skip (st : UState) (h : ¬(st.fm = false ∧ st.vrn = 3)) :
    stepRev3 st = Except.ok st := by
  rw [stepRev3, if_neg h]

theorem stepRev4_skip (st : UState) (h : ¬(st.fm = false ∧ st.vrn = 4)) :
    stepRev4 st = Except.ok st := by
  rw [stepRev4, if_neg h]

theorem stepSlot_ok (st st' : UState) (h : stepSlot st = Except.ok st') :
    ∃ s rest, st.sv = PyVal.str s :: rest ∧
      st' = { st with sv := (PyVal.str (upgradeSettingStr s) :: rest), caller := (if st.aliased then PyVal.str (upgradeSettingStr s) :: rest else st.caller) } := by
  rcases hsv : st.sv with _ | ⟨v, rest⟩
  · rw [stepSlot, hsv] at h; cases h
  · cases v with
    | tup a b => rw [stepSlot, hsv] at h; cases h
    | str s =>
      rw [stepSlot, hsv] at h
      refine ⟨s, rest, rfl, ?_⟩
      cases h; rfl

theorem stepRev1_ok_shape (st st' : UState) (hf : st.fm = false) (hv : st.vrn = 1)
    (h : stepRev1 st = Except.ok st') :
    ∃ r1, rev1Branch st.sv = Except.ok r1 ∧
      st' = { st with sv := r1, vrn := 2, aliased := false } := by
  rw [stepRev1, if_pos ⟨hf, hv⟩] at h
  rcases hb : rev1Branch st.sv with e | r1 <;> rw [hb] at h
  · cases h
  · exact ⟨r1, rfl, by cases h; rfl⟩

theorem stepMatlab_ok_shape (st st' : UState) (hf : st.fm = true) (hv : st.vrn = 4)
    (h : stepMatlab st = Except.ok st') :
    ∃ r1, matlabBranch st.sv = Except.ok r1 ∧
      st' = { st with sv := r1, vrn := 1, fm := false, aliased := false } := by
  rw [stepMatlab, if_pos ⟨hf, hv⟩] at h
  rcases hb : matlabBranch st.sv with e | r1 <;> rw [hb] at h
  · cases h
  · exact ⟨r1, rfl, by cases h; rfl⟩

theorem stepRev2_ok_shape (st st' : UState) (hf : st.fm = false) (hv : st.vrn = 2)
    (h : stepRev2 st = Except.ok st') :
    ∃ r1, rev2Branch st.sv = Except.ok r1 ∧
      st' = { st with sv := r1, vrn := 3 } := by
  rw [stepRev2, if_pos ⟨hf, hv⟩] at h
  rcases hb : rev2Branch st.sv with e | r1 <;> rw [hb] at h
  · cases h
  · exact ⟨r1, rfl, by cases h; rfl⟩

theorem rev2Branch_head (u : String) (t : List PyVal) (r : List PyVal)
    (hfix : upgradeSettingStr u = u)
    (h : rev2Branch (PyVal.str u :: t) = Except.ok r) :
    ∃ u' t', r = PyVal.str u' :: t' ∧ upgradeSettingStr u' = u' := by
  rcases hsp : split_string u with _ | ⟨dc, cd⟩ <;>
    simp only [rev2Branch, pyGet, List.get?, bind, Except.bind, hsp,
      List.drop_succ_cons, List.drop_zero] at h
  · cases h
  · by_cases hurl : dc = URL_FOLDER_NAME
    · simp only [if_pos hurl] at h
      rcases hmc : mapConcat cd (everyOther t) with e | fns <;> rw [hmc] at h
      · cases h
      · refine ⟨static_join_string dc "", zipTup fns (everyOther (List.drop 1 t)), ?_, ?_⟩
        · cases h; rfl
        · rw [hurl]; decide
    · simp only [if_neg hurl] at h
      exact ⟨u, t, by cases h; rfl, hfix⟩

theorem stepRev2_head (st st' : UState)
    (hh : ∃ u t, st.sv = PyVal.str u :: t ∧ upgradeSettingStr u = u)
    (h : stepRev2 st = Except.ok st') :
    ∃ u t, st'.sv = PyVal.str u :: t ∧ upgradeSettingStr u = u := by
  by_cases hg : st.fm = false ∧ st.vrn = 2
  · obtain ⟨r1, hb, rfl⟩ := stepRev2_ok_shape st st' hg.1 hg.2 h
    obtain ⟨u, t, hsv, hfix⟩ := hh
    rw [hsv] at hb
    exact rev2Branch_head u t r1 hfix hb
  · rw [stepRev2_skip st hg] at h
    cases h; exact hh

theorem stepRev3_head (st st' : UState)
    (hh : ∃ u t, st.sv = PyVal.str u :: t ∧ upgradeSettingStr u = u)
    (h : stepRev3 st = Except.ok st') :
    ∃ u t, st'.sv = PyVal.str u :: t ∧ upgradeSettingStr u = u := by
  obtain ⟨u, t, hsv, hfix⟩ := hh
  by_cases hg : st.fm = false ∧ st.vrn = 3
  · rw [stepRev3, if_pos hg] at h
    cases h
    exact ⟨u, expandRev3 t, by simp [hsv], hfix⟩
  · rw [stepRev3_skip st hg] at h
    cases h; exact ⟨u, t, hsv, hfix⟩

theorem stepRev4_head (st st' : UState)
    (hh : ∃ u t, st.sv = PyVal.str u :: t ∧ upgradeSettingStr u = u)
    (h : stepRev4 st = Except.ok st') :
    ∃ u t, st'.sv = PyVal.str u :: t ∧ upgradeSettingStr u = u := by
  obtain ⟨u, t, hsv, hfix⟩ := hh
  by_cases hg : st.fm = false ∧ st.vrn = 4
  · rw [stepRev4, if_pos hg] at h
    cases h
    exact ⟨u, expandRev4 t, by simp [hsv], hfix⟩
  · rw [stepRev4_skip st hg] at h
    cases h; exact ⟨u, t, hsv, hfix⟩

theorem chainRun_ok_inv (sv0 : List PyVal) (vrn0 : Nat) (fm0 : Bool) (st : UState)
    (h : chainRun sv0 vrn0 fm0 = Except.ok st) :
    ∃ st1 st2 st3 st4 st5,
      stepMatlab { sv := sv0, vrn := vrn0, fm := fm0, caller := sv0, aliased := true }
        = Except.ok st1 ∧
      stepRev1 st1 = Except.ok st2 ∧
      stepSlot st2 = Except.ok st3 ∧
      stepRev2 st3 = Except.ok st4 ∧
      stepRev3 st4 = Except.ok st5 ∧
      stepRev4 st5 = Except.ok st := by
  unfold chainRun at h
  obtain ⟨st5, h5, hs6⟩ := (bindStep_ok_iff _ _ _).mp h
  obtain ⟨st4, h4, hs5⟩ := (bindStep_ok_iff _ _ _).mp h5
  obtain ⟨st3, h3, hs4⟩ := (bindStep_ok_iff _ _ _).mp h4
  obtain ⟨st2, h2, hs3⟩ := (bindStep_ok_iff _ _ _).mp h3
  obtain ⟨st1, h1, hs2⟩ := (bindStep_ok_iff _ _ _).mp h2
  obtain ⟨st0, h0, hs1⟩ := (bindStep_ok_iff _ _ _).mp h1
  cases h0
  exact ⟨st1, st2, st3, st4, st5, hs1, hs2, hs3, hs4, hs5, hs6⟩

theorem chainRun_headFixed (sv0 : List PyVal) (vrn0 : Nat) (fm0 : Bool) (st : UState)
    (h : chainRun sv0 vrn0 fm0 = Except.ok st) :
    ∃ u t, st.sv = PyVal.str u :: t ∧ upgradeSettingStr u = u := by
  obtain ⟨st1, st2, st3, st4, st5, _, _, hs3, hs4, hs5, hs6⟩ :=
    chainRun_ok_inv sv0 vrn0 fm0 st h
  obtain ⟨s, rest, hsv2, hst3⟩ := stepSlot_ok st2 st3 hs3
  have hh3 : ∃ u t, st3.sv = PyVal.str u :: t ∧ upgradeSettingStr u = u := by
    rw [hst3]
    exact ⟨upgradeSettingStr s, rest, rfl, upgradeSettingStr_idem s⟩
  exact stepRev4_head st5 st (stepRev3_head st4 st5 (stepRev2_head st3 st4 hh3 hs4) hs5) hs6

/-! Helper lemmas about the repeating-group expansions. -/

theorem expandRev3_len (k : Nat) :
    ∀ t : List PyVal, t.length = 2 * k → (expandRev3 t).length = 3 * k := by
  induction k with
  | zero =>
    intro t ht
    have : t = [] := List.length_eq_zero.mp (by omega)
    subst this; rfl
  | succ k ih =>
    intro t ht
    match t with
    | [] => simp only [List.length_nil] at ht; omega
    | [a] => simp only [List.length_cons, List.length_nil] at ht; omega
    | a :: b :: r =>
      simp only [List.length_cons] at ht
      have hr : r.length = 2 * k := by omega
      simp only [expandRev3, List.length_cons, ih r hr]
      omega

theorem expandRev4_len (k : Nat) :
    ∀ t : List PyVal, t.length = 3 * k → (expandRev4 t).length = 5 * k := by
  induction k with
  | zero =>
    intro t ht
    have : t = [] := List.length_eq_zero.mp (by omega)
    subst this; rfl
  | succ k ih =>
    intro t ht
    match t with
    | [] => simp only [List.length_nil] at ht; omega
    | [a] => simp only [List.length_cons, List.length_nil] at ht; omega
    | [a, b] => simp only [List.length_cons, List.length_nil] at ht; omega
    | a :: b :: c :: r =>
      simp only [List.length_cons] at ht
      have hr : r.length = 3 * k := by omega
      simp only [expandRev4, List.length_cons, ih r hr]
      omega

theorem expandRev4_flat3 (l : List (PyVal × PyVal × PyVal)) :
    expandRev4 (flat3 l) = flat5 l := by
  induction l with
  | nil => rfl
  | cons e r ih =>
    obtain ⟨a, b, c⟩ := e
    cases r with
    | nil => rfl
    | cons e' r' =>
      obtain ⟨a', b', c'⟩ := e'
      simp only [flat3, flat5, expandRev4] at ih ⊢
      rw [ih]

/-! Claim theorems. -/

/-- Claim C1 (code bug): migrating the spec's revision-2 url record — custom
path `data/plateA`, one entry with filename `img.tif` — does clear the custom
path and build the absorbed filename `data/plateA/img.tif`, but the rewrite
assembles the record as Python 2 `[dir] + zip(...)`, so the result is not a
flat sequence of strings: the (filename, image-name) pair survives as a
nested tuple field, which the later rewrites then treat as a single field. -/
theorem c1_url_zip_nesting :
    (upgrade_settings [PyVal.str "URL|data/plateA", PyVal.str "img.tif", PyVal.str "OrigBlue"] 2 false).1
      = Except.ok ([PyVal.str "URL|", PyVal.tup (PyVal.str "data/plateA/img.tif") (PyVal.str "OrigBlue"), PyVal.str IO_IMAGES, PyVal.str YES, PyVal.str "Nuclei"], 5, false)
    ∧ isFlat [PyVal.str "URL|", PyVal.tup (PyVal.str "data/plateA/img.tif") (PyVal.str "OrigBlue"), PyVal.str IO_IMAGES, PyVal.str YES, PyVal.str "Nuclei"] = false := by
  constructor
  · rfl
  · rfl

/-- Claim C2 (counterexample): a record with tail length 7 at declared
revision 5, where the entry width is 5, does not fail migration at all —
`upgrade_settings` returns it unchanged (there is no `MisalignedRecord`
check anywhere in the code). -/
theorem c2_no_misaligned_error :
    (upgrade_settings [PyVal.str "Default Input Folder|", PyVal.str "a", PyVal.str "b", PyVal.str "c", PyVal.str "d", PyVal.str "e", PyVal.str "f", PyVal.str "g"] 5 false).1
      = Except.ok ([PyVal.str "Default Input Folder|", PyVal.str "a", PyVal.str "b", PyVal.str "c", PyVal.str "d", PyVal.str "e", PyVal.str "f", PyVal.str "g"], 5, false) := by
  rfl

/-- Claim C2 (amended): migration performs no tail-alignment check.  A
revision-5 record with tail length 7 migrates successfully, unchanged apart
from the slot-0 directory standardization, and the downstream
`prepare_settings` entry count is the silent floor `(8 - 1) / 5 = 1`,
discarding the two extra fields. -/
theorem c2_amended (s : String) (t : List PyVal) (h : t.length = 7) :
    (upgrade_settings (PyVal.str s :: t) 5 false).1
      = Except.ok (PyVal.str (upgradeSettingStr s) :: t, 5, false)
    ∧ prepare_settings_count (PyVal.str s :: t).length = 1 := by
  constructor
  · simp [upgrade_settings, chainRun, bindStep, stepMatlab, stepRev1, stepSlot,
      stepRev2, stepRev3, stepRev4]
  · rw [List.length_cons, h]
    decide

/-- Witness for the amended claim C2 at a concrete misaligned record. -/
theorem c2_amended_witness :
    (upgrade_settings [PyVal.str "Elsewhere...|d", PyVal.str "a", PyVal.str "b", PyVal.str "c", PyVal.str "d", PyVal.str "e", PyVal.str "f", PyVal.str "g"] 5 false).1
      = Except.ok ([PyVal.str "Elsewhere...|d", PyVal.str "a", PyVal.str "b", PyVal.str "c", PyVal.str "d", PyVal.str "e", PyVal.str "f", PyVal.str "g"], 5, false)
    ∧ prepare_settings_count ([PyVal.str "Elsewhere...|d", PyVal.str "a", PyVal.str "b", PyVal.str "c", PyVal.str "d", PyVal.str "e", PyVal.str "f", PyVal.str "g"] : List PyVal).length = 1 :=
  c2_amended "Elsewhere...|d" [PyVal.str "a", PyVal.str "b", PyVal.str "c", PyVal.str "d", PyVal.str "e", PyVal.str "f", PyVal.str "g"] rfl

/-- Claim C3 (counterexample): a legacy-origin record at revision 3 — a
`(revision, is_legacy)` pair with no rewrite rule — does not fail with any
`UnknownRevision` error: `upgrade_settings` returns it unchanged with the
same revision and legacy flag. -/
theorem c3_no_unknown_revision_error :
    (upgrade_settings [PyVal.str "", PyVal.str "."] 3 true).1
      = Except.ok ([PyVal.str "", PyVal.str "."], 3, true) := by
  rfl

/-- Claim C3 (amended): for every `(revision, is_legacy)` pair with no
registered rewrite (legacy at any revision other than 4, or native above 5),
`upgrade_settings` raises no error at all: it returns the record with only
the slot-0 directory standardization applied, leaving the revision and the
legacy flag unchanged. -/
theorem c3_amended (s : String) (t : List PyVal) (vrn : Nat) (fm : Bool)
    (h : (fm = true ∧ vrn ≠ 4) ∨ (fm = false ∧ 5 < vrn)) :
    (upgrade_settings (PyVal.str s :: t) vrn fm).1
      = Except.ok (PyVal.str (upgradeSettingStr s) :: t, vrn, fm) := by
  rcases h with ⟨hf, hv⟩ | ⟨hf, hv⟩ <;> subst hf
  · simp [upgrade_settings, chainRun, bindStep, stepMatlab, stepRev1, stepSlot,
      stepRev2, stepRev3, stepRev4, hv]
  · have h1 : vrn ≠ 1 := by omega
    have h2 : vrn ≠ 2 := by omega
    have h3 : vrn ≠ 3 := by omega
    have h4 : vrn ≠ 4 := by omega
    simp [upgrade_settings, chainRun, bindStep, stepMatlab, stepRev1, stepSlot,
      stepRev2, stepRev3, stepRev4, h1, h2, h3, h4]

/-- Witness for the amended claim C3: a legacy revision-2 record and a native
revision-7 record both come back unchanged rather than failing. -/
theorem c3_amended_witness :
    (upgrade_settings [PyVal.str "x", PyVal.str "f"] 2 true).1
      = Except.ok ([PyVal.str "x", PyVal.str "f"], 2, true)
    ∧ (upgrade_settings [PyVal.str "x"] 7 false).1
      = Except.ok ([PyVal.str "x"], 7, false) :=
  ⟨c3_amended "x" [PyVal.str "f"] 2 true (Or.inl ⟨rfl, by decide⟩),
   c3_amended "x" [] 7 false (Or.inr ⟨rfl, by decide⟩)⟩

/-- Claim C7 (counterexample): the legacy rewrite does not insert a new
leading field.  On a ten-field legacy record it overwrites the first field
with the folder tag in place: the result of the tag step has the same length
as the input, and every field other than the first keeps its position
(nothing is shifted one position later). -/
theorem c7_no_insertion :
    matlabTag [PyVal.str "", PyVal.str "C:/imgs", PyVal.str "f1", PyVal.str "n1", PyVal.str "f2", PyVal.str "n2", PyVal.str "f3", PyVal.str "n3", PyVal.str "f4", PyVal.str "n4"]
      = Except.ok [PyVal.str DIR_CUSTOM_FOLDER, PyVal.str "C:/imgs", PyVal.str "f1", PyVal.str "n1", PyVal.str "f2", PyVal.str "n2", PyVal.str "f3", PyVal.str "n3", PyVal.str "f4", PyVal.str "n4"]
    ∧ ([PyVal.str DIR_CUSTOM_FOLDER, PyVal.str "C:/imgs", PyVal.str "f1", PyVal.str "n1", PyVal.str "f2", PyVal.str "n2", PyVal.str "f3", PyVal.str "n3", PyVal.str "f4", PyVal.str "n4"] : List PyVal).length
      = ([PyVal.str "", PyVal.str "C:/imgs", PyVal.str "f1", PyVal.str "n1", PyVal.str "f2", PyVal.str "n2", PyVal.str "f3", PyVal.str "n3", PyVal.str "f4", PyVal.str "n4"] : List PyVal).length := by
  constructor
  · rfl
  · rfl

/-- Claim C7 (amended): the legacy rewrite's tag step overwrites the (blank)
first field in place with the explicit folder tag: on any record with at
least two fields the result is `tag :: original tail` — same length as the
input, every field after the first unmoved, and the original first field
replaced rather than shifted. -/
theorem c7_amended (v0 v1 : PyVal) (rest : List PyVal) :
    ∃ tag, matlabTag (v0 :: v1 :: rest) = Except.ok (PyVal.str tag :: v1 :: rest) := by
  refine ⟨legacyTag v1, ?_⟩
  simp [matlabTag, pyGet, List.get?, bind, Except.bind]

/-- Claim C8 (code bug): the 1→2 rewrite crashes with an IndexError on a
shape-valid revision-1 record whose first field is the custom-folder tag and
whose custom-directory field is the empty string, because the source reads
`custom_directory[0]` without guarding against the empty string. -/
theorem c8_empty_custom_dir_crash :
    (upgrade_settings [PyVal.str DIR_CUSTOM_FOLDER, PyVal.str "", PyVal.str "f", PyVal.str "n"] 1 false).1
      = Except.error PErr.indexError := by
  rfl

/-- Claim C9: for every revision-4 record (a directory field whose
standardization is stable, plus any number of width-3 entries), the 4→5
rewrite maps each entry `(filename, image_name, rescale)` to exactly
`(filename, IO_IMAGES, image_name, rescale, "Nuclei")`: the new choice field
lands immediately after the filename and the object name is appended last. -/
theorem c9_v4_to_v5_field_order (s : String) (entries : List (PyVal × PyVal × PyVal))
    (h : upgradeSettingStr s = s) :
    (upgrade_settings (PyVal.str s :: flat3 entries) 4 false).1
      = Except.ok (PyVal.str s :: flat5 entries, 5, false) := by
  simp [upgrade_settings, chainRun, bindStep, stepMatlab, stepRev1, stepSlot,
    stepRev2, stepRev3, stepRev4, h, expandRev4_flat3]

/-- Witness for claim C9 at the spec's literal width-3 entry: `("img.tif",
"OrigBlue", "yes")` becomes `("img.tif", IO_IMAGES, "OrigBlue", "yes",
"Nuclei")`. -/
theorem c9_field_order_witness :
    (upgrade_settings [PyVal.str "Default Input Folder|", PyVal.str "img.tif", PyVal.str "OrigBlue", PyVal.str "yes"] 4 false).1
      = Except.ok ([PyVal.str "Default Input Folder|", PyVal.str "img.tif", PyVal.str IO_IMAGES, PyVal.str "OrigBlue", PyVal.str "yes", PyVal.str "Nuclei"], 5, false) :=
  c9_v4_to_v5_field_order "Default Input Folder|"
    [(PyVal.str "img.tif", PyVal.str "OrigBlue", PyVal.str "yes")] (by decide)

/-- Claim C10: the legacy rewrite maps the one-character folder convention
in the record's second field to the explicit tag: `"."` yields the
default-input tag, `"&"` the default-output tag, and any other value the
custom-folder tag. -/
theorem c10_legacy_sentinel_mapping (v0 : PyVal) (s1 : String) (rest : List PyVal) :
    (s1 = "." → matlabTag (v0 :: PyVal.str s1 :: rest)
      = Except.ok (PyVal.str DEFAULT_INPUT_FOLDER_NAME :: PyVal.str s1 :: rest))
    ∧ (s1 = "&" → matlabTag (v0 :: PyVal.str s1 :: rest)
      = Except.ok (PyVal.str DEFAULT_OUTPUT_FOLDER_NAME :: PyVal.str s1 :: rest))
    ∧ (s1 ≠ "." → s1 ≠ "&" → matlabTag (v0 :: PyVal.str s1 :: rest)
      = Except.ok (PyVal.str DIR_CUSTOM_FOLDER :: PyVal.str s1 :: rest)) := by
  refine ⟨?_, ?_, ?_⟩
  · intro h
    subst h
    simp [matlabTag, pyGet, List.get?, bind, Except.bind, legacyTag, pyEqStr]
  · intro h
    subst h
    simp [matlabTag, pyGet, List.get?, bind, Except.bind, legacyTag, pyEqStr]
  · intro h1 h2
    simp [matlabTag, pyGet, List.get?, bind, Except.bind, legacyTag, pyEqStr, h1, h2]

/-- Witness for claim C10 at the spec's three literal inputs. -/
theorem c10_sentinel_witness :
    matlabTag [PyVal.str "", PyVal.str ".", PyVal.str "f", PyVal.str "n"]
      = Except.ok [PyVal.str DEFAULT_INPUT_FOLDER_NAME, PyVal.str ".", PyVal.str "f", PyVal.str "n"]
    ∧ matlabTag [PyVal.str "", PyVal.str "&", PyVal.str "f", PyVal.str "n"]
      = Except.ok [PyVal.str DEFAULT_OUTPUT_FOLDER_NAME, PyVal.str "&", PyVal.str "f", PyVal.str "n"]
    ∧ matlabTag [PyVal.str "", PyVal.str "C:/images", PyVal.str "f", PyVal.str "n"]
      = Except.ok [PyVal.str DIR_CUSTOM_FOLDER, PyVal.str "C:/images", PyVal.str "f", PyVal.str "n"] :=
  ⟨(c10_legacy_sentinel_mapping (PyVal.str "") "." [PyVal.str "f", PyVal.str "n"]).1 rfl,
   (c10_legacy_sentinel_mapping (PyVal.str "") "&" [PyVal.str "f", PyVal.str "n"]).2.1 rfl,
   (c10_legacy_sentinel_mapping (PyVal.str "") "C:/images" [PyVal.str "f", PyVal.str "n"]).2.2
     (by decide) (by decide)⟩

/-- Claim C5: migration is idempotent at the fixed point.  Whenever
`upgrade_settings` succeeds, running it again on the result record from the
current revision 5 with the legacy flag cleared returns that record
unchanged (at revision 5, non-legacy). -/
theorem c5_idempotent_at_fixed_point (sv : List PyVal) (vrn : Nat) (fm : Bool)
    (out : List PyVal × Nat × Bool)
    (h : (upgrade_settings sv vrn fm).1 = Except.ok out) :
    (upgrade_settings out.1 5 false).1 = Except.ok (out.1, 5, false) := by
  rcases hc : chainRun sv vrn fm with ⟨e, c⟩ | st
  · rw [upgrade_settings, hc] at h
    cases h
  · have hout : out.1 = st.sv := by
      rw [upgrade_settings, hc] at h
      cases h
      rfl
    obtain ⟨u, t, hsv, hfix⟩ := chainRun_headFixed sv vrn fm st hc
    rw [hout, hsv]
    simp [upgrade_settings, chainRun, bindStep, stepMatlab, stepRev1, stepSlot,
      stepRev2, stepRev3, stepRev4, hfix]

/-- Witness for claim C5: a concrete record already at the fixed point. -/
theorem c5_idempotent_witness :
    (upgrade_settings [PyVal.str "Default Input Folder|x"] 5 false).1
      = Except.ok ([PyVal.str "Default Input Folder|x"], 5, false) :=
  c5_idempotent_at_fixed_point [PyVal.str "Default Input Folder|x"] 5 false
    ([PyVal.str "Default Input Folder|x"], 5, false) (by rfl)

/-! Helper lemmas tracking the caller's list through the chain (for the
frame-effect claim). -/

theorem chainRun_eq_preSlot (sv0 : List PyVal) (vrn0 : Nat) (fm0 : Bool) :
    chainRun sv0 vrn0 fm0
      = bindStep (bindStep (bindStep (preSlotRun sv0 vrn0 fm0) stepRev2) stepRev3) stepRev4 := rfl

theorem upgrade_settings_snd (sv0 : List PyVal) (vrn0 : Nat) (fm0 : Bool) :
    (upgrade_settings sv0 vrn0 fm0).2 = callerOf (chainRun sv0 vrn0 fm0) := by
  cases hc : chainRun sv0 vrn0 fm0 with
  | ok st => simp [upgrade_settings, hc, callerOf]
  | error p =>
    obtain ⟨e, c⟩ := p
    simp [upgrade_settings, hc, callerOf]

theorem bindStep_callerOf (x : Except (PErr × List PyVal) UState)
    (f : UState → Except PErr UState)
    (hf : ∀ st st', f st = Except.ok st' → st'.caller = st.caller) :
    callerOf (bindStep x f) = callerOf x := by
  cases x with
  | error p => rfl
  | ok st =>
    cases hf' : f st with
    | error e => simp [bindStep, hf', callerOf]
    | ok st' => simp [bindStep, hf', callerOf, hf st st' hf']

theorem stepRev2_caller (st st' : UState) (h : stepRev2 st = Except.ok st') :
    st'.caller = st.caller := by
  by_cases hg : st.fm = false ∧ st.vrn = 2
  · obtain ⟨r1, _, rfl⟩ := stepRev2_ok_shape st st' hg.1 hg.2 h
    rfl
  · rw [stepRev2_skip st hg] at h
    cases h; rfl

theorem stepRev3_caller (st st' : UState) (h : stepRev3 st = Except.ok st') :
    st'.caller = st.caller := by
  by_cases hg : st.fm = false ∧ st.vrn = 3
  · rw [stepRev3, if_pos hg] at h
    cases h; rfl
  · rw [stepRev3_skip st hg] at h
    cases h; rfl

theorem stepRev4_caller (st st' : UState) (h : stepRev4 st = Except.ok st') :
    st'.caller = st.caller := by
  by_cases hg : st.fm = false ∧ st.vrn = 4
  · rw [stepRev4, if_pos hg] at h
    cases h; rfl
  · rw [stepRev4_skip st hg] at h
    cases h; rfl

theorem chain_callerOf (sv0 : List PyVal) (vrn0 : Nat) (fm0 : Bool) :
    callerOf (chainRun sv0 vrn0 fm0) = callerOf (preSlotRun sv0 vrn0 fm0) := by
  rw [chainRun_eq_preSlot,
    bindStep_callerOf _ _ stepRev4_caller,
    bindStep_callerOf _ _ stepRev3_caller,
    bindStep_callerOf _ _ stepRev2_caller]

theorem preSlot_caller_branch (sv0 : List PyVal) (vrn0 : Nat) (fm0 : Bool)
    (h : (fm0 = true ∧ vrn0 = 4) ∨ (fm0 = false ∧ vrn0 = 1)) :
    callerOf (preSlotRun sv0 vrn0 fm0) = sv0 := by
  rcases h with ⟨hf, hv⟩ | ⟨hf, hv⟩ <;> subst hf <;> subst hv
  · rcases hm : matlabBranch sv0 with e | m
    · simp [preSlotRun, bindStep, stepMatlab, hm, callerOf]
    · rcases h1 : rev1Branch m with e | r1
      · simp [preSlotRun, bindStep, stepMatlab, stepRev1, hm, h1, callerOf]
      · rcases r1 with _ | ⟨v, rest⟩
        · simp [preSlotRun, bindStep, stepMatlab, stepRev1, stepSlot, hm, h1, callerOf]
        · cases v with
          | tup a b =>
            simp [preSlotRun, bindStep, stepMatlab, stepRev1, stepSlot, hm, h1, callerOf]
          | str s =>
            simp [preSlotRun, bindStep, stepMatlab, stepRev1, stepSlot, hm, h1, callerOf]
  · rcases h1 : rev1Branch sv0 with e | r1
    · simp [preSlotRun, bindStep, stepMatlab, stepRev1, h1, callerOf]
    · rcases r1 with _ | ⟨v, rest⟩
      · simp [preSlotRun, bindStep, stepMatlab, stepRev1, stepSlot, h1, callerOf]
      · cases v with
        | tup a b =>
          simp [preSlotRun, bindStep, stepMatlab, stepRev1, stepSlot, h1, callerOf]
        | str s =>
          simp [preSlotRun, bindStep, stepMatlab, stepRev1, stepSlot, h1, callerOf]

/-- Claim C4 (counterexample): migration does mutate the caller's record.
For a native revision-4 record whose directory slot holds a deprecated
folder spelling, the caller's list after the call differs from the original:
slot 0 has been overwritten in place by the standardization of source line
441. -/
theorem c4_caller_mutated :
    (upgrade_settings [PyVal.str "Default Image Folder|a", PyVal.str "f", PyVal.str "n", PyVal.str "Yes"] 4 false).2
      ≠ [PyVal.str "Default Image Folder|a", PyVal.str "f", PyVal.str "n", PyVal.str "Yes"] := by
  decide

/-- Claim C4 (amended): every rewrite builds a fresh list, and the only
in-place effect on the caller's record is the slot-0 directory
standardization of source line 441: after any call the caller's list is
either exactly the original or the original with only its first field
replaced by its standardized value; and when the legacy branch or the
revision-1 branch runs first (both rebind `setting_values` to a fresh list
before line 441), the caller's list is never touched at all. -/
theorem c4_amended (sv : List PyVal) (vrn : Nat) (fm : Bool) :
    ((upgrade_settings sv vrn fm).2 = sv
      ∨ ∃ s t, sv = PyVal.str s :: t
          ∧ (upgrade_settings sv vrn fm).2 = PyVal.str (upgradeSettingStr s) :: t)
    ∧ ((fm = true ∧ vrn = 4) ∨ (fm = false ∧ vrn = 1) →
        (upgrade_settings sv vrn fm).2 = sv) := by
  constructor
  · by_cases hg : (fm = true ∧ vrn = 4) ∨ (fm = false ∧ vrn = 1)
    · left
      rw [upgrade_settings_snd, chain_callerOf]
      exact preSlot_caller_branch sv vrn fm hg
    · have hg1 : ¬(fm = true ∧ vrn = 4) := fun h => hg (Or.inl h)
      have hg2 : ¬(fm = false ∧ vrn = 1) := fun h => hg (Or.inr h)
      rcases sv with _ | ⟨v, rest⟩
      · left
        rw [upgrade_settings_snd, chain_callerOf]
        have hma := stepMatlab_skip { sv := ([] : List PyVal), vrn := vrn, fm := fm, caller := [], aliased := true } hg1
        have hr1 := stepRev1_skip { sv := ([] : List PyVal), vrn := vrn, fm := fm, caller := [], aliased := true } hg2
        simp [preSlotRun, bindStep, hma, hr1, stepSlot, callerOf]
      · cases v with
        | tup a b =>
          left
          rw [upgrade_settings_snd, chain_callerOf]
          have hma := stepMatlab_skip { sv := (PyVal.tup a b :: rest), vrn := vrn, fm := fm, caller := (PyVal.tup a b :: rest), aliased := true } hg1
          have hr1 := stepRev1_skip { sv := (PyVal.tup a b :: rest), vrn := vrn, fm := fm, caller := (PyVal.tup a b :: rest), aliased := true } hg2
          simp [preSlotRun, bindStep, hma, hr1, stepSlot, callerOf]
        | str s =>
          right
          refine ⟨s, rest, rfl, ?_⟩
          rw [upgrade_settings_snd, chain_callerOf]
          have hma := stepMatlab_skip { sv := (PyVal.str s :: rest), vrn := vrn, fm := fm, caller := (PyVal.str s :: rest), aliased := true } hg1
          have hr1 := stepRev1_skip { sv := (PyVal.str s :: rest), vrn := vrn, fm := fm, caller := (PyVal.str s :: rest), aliased := true } hg2
          simp [preSlotRun, bindStep, hma, hr1, stepSlot, callerOf]
  · intro hg
    rw [upgrade_settings_snd, chain_callerOf]
    exact preSlot_caller_branch sv vrn fm hg

/-- Witness for the amended claim C4: on a legacy revision-4 record the
caller's list is untouched. -/
theorem c4_amended_witness :
    (upgrade_settings [PyVal.str "", PyVal.str ".", PyVal.str "f1", PyVal.str "n1", PyVal.str "f2", PyVal.str "n2", PyVal.str "f3", PyVal.str "n3", PyVal.str "f4", PyVal.str "n4"] 4 true).2
      = [PyVal.str "", PyVal.str ".", PyVal.str "f1", PyVal.str "n1", PyVal.str "f2", PyVal.str "n2", PyVal.str "f3", PyVal.str "n3", PyVal.str "f4", PyVal.str "n4"] :=
  (c4_amended [PyVal.str "", PyVal.str ".", PyVal.str "f1", PyVal.str "n1", PyVal.str "f2", PyVal.str "n2", PyVal.str "f3", PyVal.str "n3", PyVal.str "f4", PyVal.str "n4"] 4 true).2
    (Or.inl ⟨rfl, rfl⟩)

/-! Helper lemmas for the entry-count claim. -/

theorem rev1Branch_shape (sv : List PyVal) (r : List PyVal)
    (h : rev1Branch sv = Except.ok r) :
    ∃ d, r = PyVal.str d :: sv.drop 2 ∧ 2 ≤ sv.length := by
  rcases sv with _ | ⟨v0, sv'⟩
  · simp [rev1Branch, pyGet, List.get?, bind, Except.bind] at h
  · cases v0 with
    | tup a b => simp [rev1Branch, pyGet, List.get?, bind, Except.bind] at h
    | str s0 =>
      rcases sv' with _ | ⟨v1, rest⟩
      · simp only [rev1Branch, pyGet, List.get?, bind, Except.bind] at h
        split at h <;> [skip; split at h] <;> cases h
      · cases v1 with
        | tup a b =>
          simp only [rev1Branch, pyGet, List.get?, bind, Except.bind] at h
          split at h <;> [skip; split at h] <;> cases h
        | str cd =>
          simp only [rev1Branch, pyGet, List.get?, bind, Except.bind,
            List.drop_succ_cons, List.drop_zero] at h
          split at h
          · cases h
            exact ⟨_, rfl, by simp⟩
          · split at h
            · split at h
              · cases h
              · split at h
                · cases h
                  exact ⟨_, rfl, by simp⟩
                · split at h <;> cases h <;> exact ⟨_, rfl, by simp⟩
            · cases h
              exact ⟨_, rfl, by simp⟩

theorem rev2Branch_nonurl (u : String) (rest r2 : List PyVal)
    (hn : ∀ dc cd, split_string u = some (dc, cd) → dc ≠ URL_FOLDER_NAME)
    (h : rev2Branch (PyVal.str u :: rest) = Except.ok r2) :
    r2 = PyVal.str u :: rest := by
  rcases hsp : split_string u with _ | ⟨dc, cd⟩ <;>
    simp only [rev2Branch, pyGet, List.get?, bind, Except.bind, hsp] at h
  · cases h
  · rw [if_neg (hn dc cd hsp)] at h
    cases h; rfl

theorem urlHeadB_false_elim (s : String) (rest : List PyVal)
    (hf : urlHeadB (PyVal.str s :: rest) = false) :
    ∀ dc cd, split_string (upgradeSettingStr s) = some (dc, cd) →
      dc ≠ URL_FOLDER_NAME := by
  intro dc cd hsp heq
  subst heq
  simp [urlHeadB, hsp] at hf

theorem entryCount5_cons (x : PyVal) (l : List PyVal) (k : Nat)
    (h : l.length = 5 * k) : entryCount 5 (x :: l) = k := by
  simp only [entryCount, entryWidth, fixedLen, List.length_cons, h]
  norm_num

theorem entryCount4_cons (x : PyVal) (l : List PyVal) (k : Nat)
    (h : l.length = 3 * k) : entryCount 4 (x :: l) = k := by
  simp only [entryCount, entryWidth, fixedLen, List.length_cons, h]
  norm_num

theorem entryCount3_cons (x : PyVal) (l : List PyVal) (k : Nat)
    (h : l.length = 2 * k) : entryCount 3 (x :: l) = k := by
  simp only [entryCount, entryWidth, fixedLen, List.length_cons, h]
  norm_num

theorem entryCount2_cons (x : PyVal) (l : List PyVal) (k : Nat)
    (h : l.length = 2 * k) : entryCount 2 (x :: l) = k := by
  simp only [entryCount, entryWidth, fixedLen, List.length_cons, h]
  norm_num

theorem entryCount1_eval (sv : List PyVal) (k : Nat)
    (h : sv.length = 2 + 2 * k) : entryCount 1 sv = k := by
  simp only [entryCount, entryWidth, fixedLen, h]
  norm_num

theorem skipMatlab_inv (st st' : UState) (h : stepMatlab st = Except.ok st')
    (hn : ¬(st.fm = true ∧ st.vrn = 4)) : st' = st := by
  rw [stepMatlab_skip st hn] at h
  cases h; rfl

theorem skipRev1_inv (st st' : UState) (h : stepRev1 st = Except.ok st')
    (hn : ¬(st.fm = false ∧ st.vrn = 1)) : st' = st := by
  rw [stepRev1_skip st hn] at h
  cases h; rfl

theorem skipRev2_inv (st st' : UState) (h : stepRev2 st = Except.ok st')
    (hn : ¬(st.fm = false ∧ st.vrn = 2)) : st' = st := by
  rw [stepRev2_skip st hn] at h
  cases h; rfl

theorem skipRev3_inv (st st' : UState) (h : stepRev3 st = Except.ok st')
    (hn : ¬(st.fm = false ∧ st.vrn = 3)) : st' = st := by
  rw [stepRev3_skip st hn] at h
  cases h; rfl

theorem skipRev4_inv (st st' : UState) (h : stepRev4 st = Except.ok st')
    (hn : ¬(st.fm = false ∧ st.vrn = 4)) : st' = st := by
  rw [stepRev4_skip st hn] at h
  cases h; rfl

theorem runRev3_inv (st st' : UState) (h : stepRev3 st = Except.ok st')
    (hg : st.fm = false ∧ st.vrn = 3) :
    st' = { st with sv := st.sv.take 1 ++ expandRev3 (st.sv.drop 1), vrn := 4 } := by
  rw [stepRev3, if_pos hg] at h
  cases h; rfl

theorem runRev4_inv (st st' : UState) (h : stepRev4 st = Except.ok st')
    (hg : st.fm = false ∧ st.vrn = 4) :
    st' = { st with sv := st.sv.take 1 ++ expandRev4 (st.sv.drop 1), vrn := 5 } := by
  rw [stepRev4, if_pos hg] at h
  cases h; rfl

/-- Claim C6 (counterexample): legacy-entry deletion is not "wherever they
occur".  A legacy revision-4 record with five file entries whose fifth
entry's image name is the "unused" sentinel (at index pair (10, 11), beyond
the fixed index list `[8, 6, 4]` the code scans) migrates with that entry
still present: the sentinel survives in the output. -/
theorem c6_unused_entry_survives :
    (upgrade_settings [PyVal.str "", PyVal.str ".", PyVal.str "f1", PyVal.str "n1", PyVal.str "f2", PyVal.str "n2", PyVal.str "f3", PyVal.str "n3", PyVal.str "f4", PyVal.str "n4", PyVal.str "f5", PyVal.str DO_NOT_USE] 4 true).1
      = Except.ok ([PyVal.str "Default Input Folder|.", PyVal.str "f1", PyVal.str IO_IMAGES, PyVal.str "n1", PyVal.str YES, PyVal.str "Nuclei", PyVal.str "f2", PyVal.str IO_IMAGES, PyVal.str "n2", PyVal.str YES, PyVal.str "Nuclei", PyVal.str "f3", PyVal.str IO_IMAGES, PyVal.str "n3", PyVal.str YES, PyVal.str "Nuclei", PyVal.str "f4", PyVal.str IO_IMAGES, PyVal.str "n4", PyVal.str YES, PyVal.str "Nuclei", PyVal.str "f5", PyVal.str IO_IMAGES, PyVal.str DO_NOT_USE, PyVal.str YES, PyVal.str "Nuclei"], 5, false)
    ∧ PyVal.str DO_NOT_USE ∈ [PyVal.str "Default Input Folder|.", PyVal.str "f1", PyVal.str IO_IMAGES, PyVal.str "n1", PyVal.str YES, PyVal.str "Nuclei", PyVal.str "f2", PyVal.str IO_IMAGES, PyVal.str "n2", PyVal.str YES, PyVal.str "Nuclei", PyVal.str "f3", PyVal.str IO_IMAGES, PyVal.str "n3", PyVal.str YES, PyVal.str "Nuclei", PyVal.str "f4", PyVal.str IO_IMAGES, PyVal.str "n4", PyVal.str YES, PyVal.str "Nuclei", PyVal.str "f5", PyVal.str IO_IMAGES, PyVal.str DO_NOT_USE, PyVal.str YES, PyVal.str "Nuclei"] := by
  exact ⟨rfl, by decide⟩

/-- Claim C6 (amended): entry counting, as the code actually behaves.
First half: the legacy rewrite on a standard ten-field legacy record keeps
the fixed prefix and the first entry unconditionally and removes exactly
those of the three entries at index pairs (4,5), (6,7), (8,9) whose
image-name field equals the "unused" sentinel.  Second half: migrating a
non-legacy record whose shape matches its declared revision's width
invariant, and which never reaches the revision-2 URL branch (whose
`zip`-nesting slip collapses entries — see claim C1), preserves the number
of file entries. -/
theorem c6_amended :
    (∀ a0 a1 f1 n1 f2 n2 f3 n3 f4 n4 : String,
      matlabBranch [PyVal.str a0, PyVal.str a1, PyVal.str f1, PyVal.str n1, PyVal.str f2, PyVal.str n2, PyVal.str f3, PyVal.str n3, PyVal.str f4, PyVal.str n4]
        = Except.ok (PyVal.str (legacyTag (PyVal.str a1)) :: PyVal.str a1 :: PyVal.str f1 :: PyVal.str n1 :: (keepEntry f2 n2 ++ keepEntry f3 n3 ++ keepEntry f4 n4)))
    ∧ (∀ (sv : List PyVal) (vrn : Nat) (r : List PyVal) (rv : Nat) (rf : Bool),
        1 ≤ vrn → vrn ≤ 5 → alignedAt vrn sv → notUrlAt vrn sv →
        (upgrade_settings sv vrn false).1 = Except.ok (r, rv, rf) →
        entryCount 5 r = entryCount vrn sv) := by
  constructor
  · intro a0 a1 f1 n1 f2 n2 f3 n3 f4 n4
    simp only [matlabBranch, matlabTag, pyGet, List.get?, bind, Except.bind]
    by_cases h4 : n4 = DO_NOT_USE <;> by_cases h3 : n3 = DO_NOT_USE <;>
      by_cases h2 : n2 = DO_NOT_USE <;>
      simp [matlabDeletes, matlabDeleteStep, pyEqStr, delSlice, keepEntry,
        h2, h3, h4, List.get?, List.getElem?_cons_succ, List.getElem?_cons_zero,
        List.take, List.drop, bind, Except.bind]
  · intro sv vrn r rv rf hge hle hal hnu hok
    rcases hc : chainRun sv vrn false with p | st
    · obtain ⟨e, c⟩ := p
      simp [upgrade_settings, hc] at hok
    · have hsvr : st.sv = r := by
        simp only [upgrade_settings, hc, Prod.mk.injEq, Except.ok.injEq] at hok
        exact hok.1
      obtain ⟨st1, st2, st3, st4, st5, hm, hr1, hslot, h2c, h3c, h4c⟩ :=
        chainRun_ok_inv sv vrn false st hc
      obtain ⟨k, hk⟩ := hal
      interval_cases vrn
      · -- revision 1
        have es1 := skipMatlab_inv _ _ hm (by intro hx; simp at hx)
        subst es1
        obtain ⟨r1, hb1, hst2⟩ := stepRev1_ok_shape _ _ rfl rfl hr1
        subst hst2
        obtain ⟨d, hr1s, hlen2⟩ := rev1Branch_shape sv r1 hb1
        subst hr1s
        obtain ⟨s, rest, hsv2, hst3⟩ := stepSlot_ok _ _ hslot
        subst hst3
        injection hsv2 with hd htl
        injection hd with hds
        subst hds
        subst htl
        have hn := urlHeadB_false_elim d (sv.drop 2) (hnu.1 rfl _ hb1)
        obtain ⟨r2, hb2, hst4⟩ := stepRev2_ok_shape _ _ rfl rfl h2c
        have hr2 : r2 = PyVal.str (upgradeSettingStr d) :: sv.drop 2 :=
          rev2Branch_nonurl (upgradeSettingStr d) (sv.drop 2) r2 hn hb2
        subst hr2
        subst hst4
        have es2 := runRev3_inv _ _ h3c ⟨rfl, rfl⟩
        subst es2
        have es3 := runRev4_inv _ _ h4c ⟨rfl, rfl⟩
        subst es3
        have hdrop : (sv.drop 2).length = 2 * k := by
          rw [List.length_drop, hk]
          simp [fixedLen, entryWidth]
        have hr' : r = PyVal.str (upgradeSettingStr d)
            :: expandRev4 (expandRev3 (sv.drop 2)) := hsvr.symm
        rw [hr', entryCount5_cons _ _ k
          (expandRev4_len k _ (expandRev3_len k _ hdrop)),
          entryCount1_eval sv k (by rw [hk]; simp [fixedLen, entryWidth])]
      · -- revision 2
        have es4 := skipMatlab_inv _ _ hm (by intro hx; simp at hx)
        subst es4
        have es5 := skipRev1_inv _ _ hr1 (by intro hx; simp at hx)
        subst es5
        obtain ⟨s, rest, hsv2, hst3⟩ := stepSlot_ok _ _ hslot
        subst hst3
        have hsv' : sv = PyVal.str s :: rest := hsv2
        have hn := urlHeadB_false_elim s rest (hsv' ▸ hnu.2 rfl)
        obtain ⟨r2, hb2, hst4⟩ := stepRev2_ok_shape _ _ rfl rfl h2c
        have hr2 : r2 = PyVal.str (upgradeSettingStr s) :: rest :=
          rev2Branch_nonurl (upgradeSettingStr s) rest r2 hn hb2
        subst hr2
        subst hst4
        have es6 := runRev3_inv _ _ h3c ⟨rfl, rfl⟩
        subst es6
        have es7 := runRev4_inv _ _ h4c ⟨rfl, rfl⟩
        subst es7
        have hrest : rest.length = 2 * k := by
          have := hk
          rw [hsv'] at this
          simp [fixedLen, entryWidth] at this
          omega
        have hr' : r = PyVal.str (upgradeSettingStr s)
            :: expandRev4 (expandRev3 rest) := hsvr.symm
        rw [hr', hsv', entryCount5_cons _ _ k
          (expandRev4_len k _ (expandRev3_len k _ hrest)),
          entryCount2_cons _ _ k hrest]
      · -- revision 3
        have es8 := skipMatlab_inv _ _ hm (by intro hx; simp at hx)
        subst es8
        have es9 := skipRev1_inv _ _ hr1 (by intro hx; simp at hx)
        subst es9
        obtain ⟨s, rest, hsv2, hst3⟩ := stepSlot_ok _ _ hslot
        subst hst3
        have hsv' : sv = PyVal.str s :: rest := hsv2
        have es10 := skipRev2_inv _ _ h2c (by intro hx; simp at hx)
        subst es10
        have es11 := runRev3_inv _ _ h3c ⟨rfl, rfl⟩
        subst es11
        have es12 := runRev4_inv _ _ h4c ⟨rfl, rfl⟩
        subst es12
        have hrest : rest.length = 2 * k := by
          have := hk
          rw [hsv'] at this
          simp [fixedLen, entryWidth] at this
          omega
        have hr' : r = PyVal.str (upgradeSettingStr s)
            :: expandRev4 (expandRev3 rest) := hsvr.symm
        rw [hr', hsv', entryCount5_cons _ _ k
          (expandRev4_len k _ (expandRev3_len k _ hrest)),
          entryCount3_cons _ _ k hrest]
      · -- revision 4
        have es13 := skipMatlab_inv _ _ hm (by intro hx; simp at hx)
        subst es13
        have es14 := skipRev1_inv _ _ hr1 (by intro hx; simp at hx)
        subst es14
        obtain ⟨s, rest, hsv2, hst3⟩ := stepSlot_ok _ _ hslot
        subst hst3
        have hsv' : sv = PyVal.str s :: rest := hsv2
        have es15 := skipRev2_inv _ _ h2c (by intro hx; simp at hx)
        subst es15
        have es16 := skipRev3_inv _ _ h3c (by intro hx; simp at hx)
        subst es16
        have es17 := runRev4_inv _ _ h4c ⟨rfl, rfl⟩
        subst es17
        have hrest : rest.length = 3 * k := by
          have := hk
          rw [hsv'] at this
          simp [fixedLen, entryWidth] at this
          omega
        have hr' : r = PyVal.str (upgradeSettingStr s) :: expandRev4 rest := hsvr.symm
        rw [hr', hsv', entryCount5_cons _ _ k (expandRev4_len k _ hrest),
          entryCount4_cons _ _ k hrest]
      · -- revision 5
        have es18 := skipMatlab_inv _ _ hm (by intro hx; simp at hx)
        subst es18
        have es19 := skipRev1_inv _ _ hr1 (by intro hx; simp at hx)
        subst es19
        obtain ⟨s, rest, hsv2, hst3⟩ := stepSlot_ok _ _ hslot
        subst hst3
        have hsv' : sv = PyVal.str s :: rest := hsv2
        have es20 := skipRev2_inv _ _ h2c (by intro hx; simp at hx)
        subst es20
        have es21 := skipRev3_inv _ _ h3c (by intro hx; simp at hx)
        subst es21
        have es22 := skipRev4_inv _ _ h4c (by intro hx; simp at hx)
        subst es22
        have hr' : r = PyVal.str (upgradeSettingStr s) :: rest := hsvr.symm
        rw [hr', hsv']
        rfl

/-- Witness for the amended claim C6: a concrete legacy record with one
unused-flagged entry among the three removable slots, and a concrete
well-formed native revision-3 record whose entry count is preserved. -/
theorem c6_amended_witness :
    matlabBranch [PyVal.str "", PyVal.str ".", PyVal.str "fa", PyVal.str "na", PyVal.str "fb", PyVal.str DO_NOT_USE, PyVal.str "fc", PyVal.str "nc", PyVal.str "fd", PyVal.str "nd"]
      = Except.ok (PyVal.str (legacyTag (PyVal.str ".")) :: PyVal.str "." :: PyVal.str "fa" :: PyVal.str "na" :: (keepEntry "fb" DO_NOT_USE ++ keepEntry "fc" "nc" ++ keepEntry "fd" "nd"))
    ∧ entryCount 5 [PyVal.str "x|", PyVal.str "f", PyVal.str IO_IMAGES, PyVal.str "n", PyVal.str YES, PyVal.str "Nuclei"]
      = entryCount 3 [PyVal.str "x|", PyVal.str "f", PyVal.str "n"] :=
  ⟨c6_amended.1 "" "." "fa" "na" "fb" DO_NOT_USE "fc" "nc" "fd" "nd",
   c6_amended.2 [PyVal.str "x|", PyVal.str "f", PyVal.str "n"] 3
     [PyVal.str "x|", PyVal.str "f", PyVal.str IO_IMAGES, PyVal.str "n", PyVal.str YES, PyVal.str "Nuclei"]
     5 false (by decide) (by decide) ⟨1, by decide⟩
     ⟨fun h => absurd h (by decide), fun h => absurd h (by decide)⟩ (by rfl)⟩

end LoadSingleImage
